import Mathlib

/-!
Verification development for the StockNexus inventory application.

The definitions below are a shallow embedding of the repository's core
logic: the `check_low_stock_by_name` alert-reconciliation trigger, the
row-level-security authorization predicates, and the registration-request
review flows.  Database tables become Lean lists of structures; SQL
statements become pure functions on those lists; UUIDs become `Nat`
identifiers and timestamps become `Nat` values.
-/


namespace StockNexus

inductive AlertType where
  | lowStock
  | outOfStock
deriving DecidableEq, Repr

/-- Application role enum `app_role`: admin / hod / staff. -/
inductive Role where
  | admin
  | hod
  | staff
deriving DecidableEq, Repr

/-- Registration request status: pending / approved / rejected. -/
inductive ReqStatus where
  | pending
  | approved
  | rejected
deriving DecidableEq, Repr

/-- A row of `inventory_items`, restricted to the columns the trigger and
the policies read: `id`, `name`, `department`, `quantity`, and the
per-item `low_stock_threshold` (present in the schema but not consulted
by the trigger).  Departments are represented by their text form. -/
structure Item where
  id : Nat
  name : String
  department : String
  quantity : Int
  low_stock_threshold : Int
deriving DecidableEq, Repr

/-- A row of `alerts`.  `item_id` is nullable (`ON DELETE SET NULL`);
`is_resolved` defaults to false and `resolved_at` to NULL on insert, per
the Alert entity description. -/
structure Alert where
  item_id : Option Nat
  alert_type : AlertType
  message : String
  severity : String
  is_resolved : Bool
  resolved_at : Option Nat
deriving DecidableEq, Repr

/-- The slice of the database the reconciliation trigger touches. -/
structure DB where
  items : List Item
  alerts : List Alert
deriving DecidableEq, Repr

/-- `name = NEW.name AND department = NEW.department` filter on
`inventory_items`. -/
def sameNameDept (nm dp : String) (it : Item) : Bool :=
  it.name == nm && it.department == dp

/-- `SELECT COALESCE(SUM(quantity), 0) FROM inventory_items WHERE name =
NEW.name AND department = NEW.department`. -/
def total_quantity (items : List Item) (nm dp : String) : Int :=
  ((items.filter (sameNameDept nm dp)).map Item.quantity).sum

/-- `item_id IN (SELECT id FROM inventory_items WHERE name = NEW.name AND
department = NEW.department)`: true when the alert's `item_id` is the id
of some inventory row with the given name and department (false for a
NULL `item_id`). -/
def inGroup (items : List Item) (a : Alert) (nm dp : String) : Bool :=
  items.any fun it => a.item_id == some it.id && sameNameDept nm dp it

/-- `alert_type IN ('low_stock', 'out_of_stock')`. -/
def isStockType (a : Alert) : Bool :=
  a.alert_type == AlertType.lowStock || a.alert_type == AlertType.outOfStock

/-- The WHERE clause shared by the trigger's COUNT and UPDATE statements:
alert linked to the (name, department) group, of a stock alert type, and
not yet resolved. -/
def activeInGroup (items : List Item) (nm dp : String) (a : Alert) : Bool :=
  inGroup items a nm dp && isStockType a && !a.is_resolved

/-- `SELECT COUNT(*) FROM alerts WHERE item_id IN (...) AND alert_type IN
('low_stock','out_of_stock') AND is_resolved = false`. -/
def existing_alert_count (db : DB) (nm dp : String) : Nat :=
  db.alerts.countP (activeInGroup db.items nm dp)

/-- The alert row inserted by the `total_quantity = 0` branch. -/
def outOfStockAlert (new : Item) : Alert :=
  { item_id := some new.id
    alert_type := AlertType.outOfStock
    message := "Item \x22" ++ new.name ++ "\x22 in " ++ new.department ++
      " is out of stock (Total: 0)"
    severity := "high"
    is_resolved := false
    resolved_at := none }

/-- The alert row inserted by the `0 < total_quantity <= 10` branch. -/
def lowStockAlert (new : Item) (total : Int) : Alert :=
  { item_id := some new.id
    alert_type := AlertType.lowStock
    message := "Item \x22" ++ new.name ++ "\x22 in " ++ new.department ++
      " is running low (Total: " ++ toString total ++ ")"
    severity := "medium"
    is_resolved := false
    resolved_at := none }

/-- `UPDATE alerts SET is_resolved = true, resolved_at = NOW() WHERE ...`
applied to a single row when it matches the shared WHERE clause. -/
def resolveIfActive (items : List Item) (nm dp : String) (now : Nat)
    (a : Alert) : Alert :=
  if activeInGroup items nm dp a then
    { a with is_resolved := true, resolved_at := some now }
  else a

/-- The body of the `check_low_stock_by_name` trigger function, fired
after an insert or update of `inventory_items` with the written row
`new`.  `db` is the table state after the write; `now` is `NOW()`. -/
def check_low_stock_by_name (db : DB) (new : Item) (now : Nat) : DB :=
  let total := total_quantity db.items new.name new.department
  let cnt := existing_alert_count db new.name new.department
  if total > 10 then
    { db with alerts := db.alerts.map (resolveIfActive db.items new.name new.department now) }
  else if total = 0 ∧ cnt = 0 then
    { db with alerts := db.alerts ++ [outOfStockAlert new] }
  else if total ≤ 10 ∧ total > 0 ∧ cnt = 0 then
    { db with alerts := db.alerts ++ [lowStockAlert new total] }
  else
    db

/-- A write to `inventory_items` that fires the trigger: an INSERT of a
new row, or an UPDATE replacing the row with the same `id`. -/
inductive Op where
  | insert (r : Item)
  | update (r : Item)
deriving DecidableEq, Repr

/-- The written row (`NEW`) of an operation. -/
def Op.row : Op → Item
  | .insert r => r
  | .update r => r

/-- The table state immediately after the write, before the trigger. -/
def postWrite (db : DB) : Op → DB
  | .insert r => { db with items := db.items ++ [r] }
  | .update r => { db with items := db.items.map fun it => if it.id == r.id then r else it }

/-- Whether the operation touches a row (an UPDATE whose id matches no
row updates nothing and fires no row-level trigger). -/
def Op.fires (db : DB) : Op → Prop
  | .insert _ => True
  | .update r => (db.items.any fun it => it.id == r.id) = true

instance (db : DB) (op : Op) : Decidable (op.fires db) := by
  cases op <;> unfold Op.fires <;> infer_instance

/-- Apply one inventory write: perform the write, then run the AFTER
INSERT OR UPDATE trigger on the written row. -/
def applyOp (db : DB) (op : Op) (now : Nat) : DB :=
  if op.fires db then check_low_stock_by_name (postWrite db op) op.row now
  else db

/-- The states reachable from the empty database by inventory writes. -/
inductive Reach : DB → Prop where
  | empty : Reach ⟨[], []⟩
  | step {db : DB} (op : Op) (now : Nat) : Reach db → Reach (applyOp db op now)

/-- The ids of the inventory rows (the table's primary-key column). -/
def itemIds (items : List Item) : List Nat :=
  items.map Item.id

/-- Two inventory rows agreeing on the columns the alert bookkeeping is
keyed by: id, name and department. -/
def sameKey (a b : Item) : Prop :=
  a.id = b.id ∧ a.name = b.name ∧ a.department = b.department

/-- Side conditions the hosted database guarantees or the claim assumes
for a write: an INSERT uses a fresh primary key (the table's PK
constraint), and an UPDATE does not change the target row's name or
department (the amendment forced by the rename counterexample). -/
def okOp (db : DB) : Op → Prop
  | .insert r => r.id ∉ itemIds db.items
  | .update r => ∀ it ∈ db.items, it.id = r.id → it.name = r.name ∧ it.department = r.department

/-- Reachability by writes with fresh insert ids and name/department
preserving updates. -/
inductive SafeReach : DB → Prop where
  | empty : SafeReach ⟨[], []⟩
  | step {db : DB} (op : Op) (now : Nat) :
      SafeReach db → okOp db op → SafeReach (applyOp db op now)

/-- The number of unresolved alerts of one type whose linked inventory
row carries the given name and department: the count the at-most-one
invariant speaks about. -/
def unresolvedTypedCount (db : DB) (nm dp : String) (ty : AlertType) : Nat :=
  db.alerts.countP fun a => inGroup db.items a nm dp && a.alert_type == ty && !a.is_resolved

/-- The database state of the rename counterexample: insert item 1 as
("X", "D", qty 3), rename it to "Y", insert item 2 as ("X", "D", qty 3),
then rename item 1 back to "X". -/
def renameCounterexampleDB : DB :=
  applyOp
    (applyOp
      (applyOp
        (applyOp ⟨[], []⟩ (Op.insert ⟨1, "X", "D", 3, 5⟩) 1)
        (Op.update ⟨1, "Y", "D", 3, 5⟩) 2)
      (Op.insert ⟨2, "X", "D", 3, 5⟩) 3)
    (Op.update ⟨1, "X", "D", 3, 5⟩) 4

/-- Inventory rows equal in every column except `low_stock_threshold`. -/
def eqExceptThreshold (a b : Item) : Prop :=
  a.id = b.id ∧ a.name = b.name ∧ a.department = b.department ∧ a.quantity = b.quantity

/-- Writes equal except for the written row's `low_stock_threshold`. -/
def opEqExceptThreshold : Op → Op → Prop
  | .insert r₁, .insert r₂ => eqExceptThreshold r₁ r₂
  | .update r₁, .update r₂ => eqExceptThreshold r₁ r₂
  | _, _ => False

/-- Every alert-linked item id names an existing inventory row. -/
def WFAlerts (db : DB) : Prop :=
  ∀ a ∈ db.alerts, ∀ i : Nat, a.item_id = some i → i ∈ itemIds db.items

/-- At most one unresolved stock alert per (name, department) group. -/
def AtMostOne (db : DB) : Prop :=
  ∀ nm dp : String, existing_alert_count db nm dp ≤ 1

/-- The inductive invariant: distinct primary keys, alerts linked to
existing rows, and at most one unresolved stock alert per group. -/
def Inv (db : DB) : Prop :=
  (itemIds db.items).Nodup ∧ WFAlerts db ∧ AtMostOne db

structure UserRoleRow where
  user_id : Nat
  role : Role
  department : String
deriving DecidableEq, Repr

/-- Modelled from the spec: the `has_role(_user_id, _role)` helper called
by every policy is not among the source files (only its call sites are).
Per the spec, UserRole rows are "the basis for all authorization
decisions" and the predicates test `role(caller) = r`: true iff some
`user_roles` row assigns the role to the user. -/
def has_role (roles : List UserRoleRow) (u : Nat) (r : Role) : Bool :=
  roles.any fun x => x.user_id == u && x.role == r

/-- `get_user_department`: `SELECT department FROM user_roles WHERE
user_id = _user_id LIMIT 1`; NULL (`none`) when the user has no row. -/
def get_user_department (roles : List UserRoleRow) (u : Nat) : Option String :=
  (roles.find? fun x => x.user_id == u).map UserRoleRow.department

/-- The HOD clause shared by the inventory and scrap policies:
`has_role(auth.uid(), 'hod') AND department = get_user_department(auth.uid())`.
A NULL department lookup makes the SQL comparison non-true, hence deny. -/
def hodOwnDepartment (roles : List UserRoleRow) (u : Nat) (dp : String) : Bool :=
  has_role roles u Role.hod && (get_user_department roles u == some dp)

/-- Modelled from the spec: the admin policy on `inventory_items` is not
among the source files (the spec: "admin: unrestricted read/write/delete
on InventoryItem ... across all departments"). -/
def adminManageInventory (roles : List UserRoleRow) (u : Nat) : Bool :=
  has_role roles u Role.admin

/-- Policy "HODs can insert items for their department" (WITH CHECK on
the incoming row) together with the admin policy. -/
def can_insert_inventory (roles : List UserRoleRow) (u : Nat) (row : Item) : Bool :=
  adminManageInventory roles u || hodOwnDepartment roles u row.department

/-- Policy "HODs can update items in their department" (USING on the
existing row) together with the admin policy. -/
def can_update_inventory (roles : List UserRoleRow) (u : Nat) (existing : Item) : Bool :=
  adminManageInventory roles u || hodOwnDepartment roles u existing.department

/-- Policy "HODs can delete items in their department" (USING on the
existing row) together with the admin policy. -/
def can_delete_inventory (roles : List UserRoleRow) (u : Nat) (existing : Item) : Bool :=
  adminManageInventory roles u || hodOwnDepartment roles u existing.department

/-- Policies "Admins can manage all scrap items" (FOR ALL) and "HODs can
insert scrap items in their department". -/
def can_insert_scrap (roles : List UserRoleRow) (u : Nat) (dp : String) : Bool :=
  has_role roles u Role.admin || hodOwnDepartment roles u dp

/-- Policies "Admins can manage all scrap items" and "HODs can view scrap
items in their department". -/
def can_view_scrap (roles : List UserRoleRow) (u : Nat) (dp : String) : Bool :=
  has_role roles u Role.admin || hodOwnDepartment roles u dp

/-- A row of `grievances`, restricted to the column the policies read. -/
structure Grievance where
  id : Nat
  created_by : Nat
deriving DecidableEq, Repr

/-- Policy "HOD and Staff can create grievances": `auth.uid() =
created_by AND (has_role(hod) OR has_role(staff))`. -/
def can_create_grievance (roles : List UserRoleRow) (u : Nat) (g : Grievance) : Bool :=
  u == g.created_by && (has_role roles u Role.hod || has_role roles u Role.staff)

/-- Permissive SELECT policies "Users can view their own grievances"
(`auth.uid() = created_by`) OR "Admins can view all grievances". -/
def can_read_grievance (roles : List UserRoleRow) (u : Nat) (g : Grievance) : Bool :=
  u == g.created_by || has_role roles u Role.admin

/-- Policy "Admins can update grievances". -/
def can_update_grievance (roles : List UserRoleRow) (u : Nat) : Bool :=
  has_role roles u Role.admin

/-- A row of `registration_requests`. -/
structure RegRequest where
  id : Nat
  email : String
  full_name : String
  department : String
  requested_role : Role
  status : ReqStatus
  reviewed_by : Option Nat
  reviewed_at : Option Nat
deriving DecidableEq, Repr

/-- Policy "Admins can delete rejected registration requests":
`has_role(auth.uid(), 'admin') AND status = 'rejected'`. -/
def can_delete_registration_request (roles : List UserRoleRow) (u : Nat)
    (q : RegRequest) : Bool :=
  has_role roles u Role.admin && q.status == ReqStatus.rejected

/-- A caller for whom the role/department lookup returns no row. -/
def noRole (roles : List UserRoleRow) (u : Nat) : Prop :=
  ∀ x ∈ roles, x.user_id ≠ u

/-- C6: inventory mutation is permitted iff the caller is an admin, or an
HOD whose department equals the row's department (the incoming row for
INSERT, the existing row for UPDATE/DELETE); a caller holding only staff
roles is always denied. -/
def handleApproveUpdate (reqs : List RegRequest) (reqId : Nat)
    (adminId : Option Nat) (now : Nat) : List RegRequest :=
  reqs.map fun q =>
    if q.id == reqId then
      { q with status := ReqStatus.approved
               reviewed_at := some now
               reviewed_by := match adminId with | some a => some a | none => q.reviewed_by }
    else q

/-- The `registration_requests` update issued by `handleReject` in the
Users page: same stamps as approval with status rejected. -/
def handleRejectUpdate (reqs : List RegRequest) (reqId : Nat)
    (adminId : Option Nat) (now : Nat) : List RegRequest :=
  reqs.map fun q =>
    if q.id == reqId then
      { q with status := ReqStatus.rejected
               reviewed_at := some now
               reviewed_by := match adminId with | some a => some a | none => q.reviewed_by }
    else q

/-- The `registration_requests` update issued by the `approve-user` edge
function: status approved, reviewed_by the admin resolved from the
bearer token (key dropped when the token resolves to no user),
reviewed_at the current time. -/
def approveUserRequestUpdate (reqs : List RegRequest) (reqId : Nat)
    (adminUser : Option Nat) (now : Nat) : List RegRequest :=
  reqs.map fun q =>
    if q.id == reqId then
      { q with status := ReqStatus.approved
               reviewed_by := match adminUser with | some a => some a | none => q.reviewed_by
               reviewed_at := some now }
    else q

/-- The `registration_requests` update issued by the `create-admin` edge
function: every row with the given email gets status approved and
reviewed_at stamped; reviewed_by is not in the payload and keeps its old
value. -/
def createAdminRequestUpdate (reqs : List RegRequest) (email : String)
    (now : Nat) : List RegRequest :=
  reqs.map fun q =>
    if q.email == email then
      { q with status := ReqStatus.approved, reviewed_at := some now }
    else q

/-- C9, counterexample: the create-admin path moves a pending request
with the admin email to approved stamping only reviewed_at; reviewed_by
remains NULL, so not every pending-to-approved transition stamps the
reviewing admin. -/
structure Profile where
  id : Nat
  email : String
  full_name : String
  department : String
deriving DecidableEq, Repr

/-- The tables touched by the sign-up and create-admin flows.  Auth users
are (id, email) pairs issued by the hosted auth service. -/
structure SystemState where
  authUsers : List (Nat × String)
  profiles : List Profile
  user_roles : List UserRoleRow
  requests : List RegRequest
deriving DecidableEq, Repr

/-- The `create-admin` edge function body: create the auth user with the
service role, insert a profile, insert a user_roles row with role admin,
and mark every registration request with this email approved (stamping
only reviewed_at).  `newUserId` is the id the auth service assigns. -/
def createAdmin (st : SystemState) (email fullName department : String)
    (newUserId now : Nat) : SystemState :=
  { authUsers := st.authUsers ++ [(newUserId, email)]
    profiles := st.profiles ++ [⟨newUserId, email, fullName, department⟩]
    user_roles := st.user_roles ++ [⟨newUserId, Role.admin, department⟩]
    requests := createAdminRequestUpdate st.requests email now }

/-- JS `String.prototype.toLowerCase()` (as called on the sign-up email),
modelled character-wise. -/
def toLowerCase (s : String) : String :=
  ⟨s.data.map Char.toLower⟩

/-- The branch of `handleRegistrationRequest` on the Auth page that runs
after `auth.signUp`: when the lowercased email is admin@stocknexus.com it
invokes the create-admin function (with department defaulted to IT when
empty, per `regDepartment || "IT"`); otherwise it inserts a pending
registration request carrying the requested role.  `reqId` is the id the
database assigns to the inserted request row. -/
def handleRegistrationRequest (st : SystemState) (email fullName department : String)
    (role : Role) (newUserId reqId now : Nat) : SystemState :=
  if toLowerCase email == "admin@stocknexus.com" then
    createAdmin st email fullName (if department == "" then "IT" else department)
      newUserId now
  else
    { st with requests := st.requests ++
        [⟨reqId, email, fullName, department, role, ReqStatus.pending, none, none⟩] }

/-- C10: sign-up with the admin email (case-insensitively) bypasses the
pending-approval workflow: the auth user, a profile and an admin
user_roles row are created immediately, every matching registration
request is marked approved with reviewed_by untouched, and no pending
request is inserted; any other email only appends a pending registration
request and changes nothing else. -/
theorem resolveIfActive_item_id (items : List Item) (nm dp : String) (now : Nat) (a : Alert) :
    (resolveIfActive items nm dp now a).item_id = a.item_id := by
  unfold resolveIfActive; split <;> rfl

theorem active_of_active_resolveIfActive (items : List Item) (nm₀ dp₀ nm dp : String)
    (now : Nat) (a : Alert)
    (h : activeInGroup items nm dp (resolveIfActive items nm₀ dp₀ now a) = true) :
    activeInGroup items nm dp a = true := by
  unfold resolveIfActive at h
  split at h
  · simp [activeInGroup] at h
  · exact h

theorem inGroup_congr {l₁ l₂ : List Item} (h : List.Forall₂ sameKey l₁ l₂)
    (a : Alert) (nm dp : String) : inGroup l₁ a nm dp = inGroup l₂ a nm dp := by
  induction h with
  | nil => rfl
  | @cons x y l₁ l₂ hk _ ih =>
    obtain ⟨h1, h2, h3⟩ := hk
    simp only [inGroup, List.any_cons, sameNameDept] at ih ⊢
    rw [h1, h2, h3, ih]

theorem inGroup_append_fresh {items : List Item} {r : Item} {a : Alert}
    (hWF : ∀ i : Nat, a.item_id = some i → i ∈ itemIds items)
    (hfresh : r.id ∉ itemIds items) (nm dp : String) :
    inGroup (items ++ [r]) a nm dp = inGroup items a nm dp := by
  simp only [inGroup, List.any_append, List.any_cons, List.any_nil, Bool.or_false]
  cases hid : a.item_id with
  | none => simp
  | some i =>
    have hmem := hWF i hid
    have hne : i ≠ r.id := fun e => hfresh (e ▸ hmem)
    simp [hne]

theorem item_eq_of_id_eq {items : List Item} (hnd : (itemIds items).Nodup)
    {r it : Item} (hr : r ∈ items) (hit : it ∈ items) (hid : it.id = r.id) :
    it = r :=
  List.inj_on_of_nodup_map hnd hit hr hid

theorem group_eq_of_inGroup_self {items : List Item} (hnd : (itemIds items).Nodup)
    {r : Item} (hr : r ∈ items) {a : Alert} (hid : a.item_id = some r.id)
    {nm dp : String} (h : inGroup items a nm dp = true) :
    nm = r.name ∧ dp = r.department := by
  simp only [inGroup, List.any_eq_true, sameNameDept, Bool.and_eq_true, beq_iff_eq] at h
  obtain ⟨it, hit, hb, hnm, hdp⟩ := h
  rw [hid] at hb
  have hide : it.id = r.id := by
    simpa using hb.symm
  have := item_eq_of_id_eq hnd hr hit hide
  subst this
  exact ⟨hnm.symm, hdp.symm⟩

theorem trigger_inv {db : DB} (hInv : Inv db) {r : Item} (hr : r ∈ db.items) (now : Nat) :
    Inv (check_low_stock_by_name db r now) := by
  obtain ⟨hnd, hWF, hAMO⟩ := hInv
  have hidmem : r.id ∈ itemIds db.items := List.mem_map_of_mem Item.id hr
  simp only [check_low_stock_by_name]
  split
  · -- total > 10: resolve all active alerts of the written row's group
    refine ⟨hnd, ?_, ?_⟩
    · intro a ha i hid
      rw [List.mem_map] at ha
      obtain ⟨b, hb, rfl⟩ := ha
      rw [resolveIfActive_item_id] at hid
      exact hWF b hb i hid
    · intro nm dp
      unfold existing_alert_count
      calc List.countP (activeInGroup db.items nm dp)
              (db.alerts.map (resolveIfActive db.items r.name r.department now))
          = List.countP
              (fun a => activeInGroup db.items nm dp
                (resolveIfActive db.items r.name r.department now a)) db.alerts := by
            rw [List.countP_map]; rfl
        _ ≤ List.countP (activeInGroup db.items nm dp) db.alerts :=
            List.countP_mono_left fun a _ h =>
              active_of_active_resolveIfActive _ _ _ _ _ _ _ h
        _ ≤ 1 := hAMO nm dp
  · rename_i hne1
    split
    · -- total = 0 and no active alert: append the out-of-stock alert
      rename_i hc
      refine ⟨hnd, ?_, ?_⟩
      · intro a ha i hid
        rcases List.mem_append.1 ha with h | h
        · exact hWF a h i hid
        · rw [List.mem_singleton] at h
          subst h
          cases hid
          exact hidmem
      · intro nm dp
        unfold existing_alert_count
        rw [List.countP_append, List.countP_singleton]
        by_cases hb : activeInGroup db.items nm dp (outOfStockAlert r) = true
        · have hg : inGroup db.items (outOfStockAlert r) nm dp = true := by
            have := hb
            unfold activeInGroup at this
            simp only [Bool.and_eq_true] at this
            exact this.1.1
          obtain ⟨hnm, hdp⟩ := group_eq_of_inGroup_self hnd hr rfl hg
          subst hnm; subst hdp
          have h0 : existing_alert_count db r.name r.department = 0 := hc.2
          unfold existing_alert_count at h0
          rw [h0, hb, if_pos rfl]
        · rw [if_neg (by simpa using hb)]
          have h1 := hAMO nm dp
          unfold existing_alert_count at h1
          simpa using h1
    · rename_i hne2
      split
      · -- 0 < total ≤ 10 and no active alert: append the low-stock alert
        rename_i hc
        refine ⟨hnd, ?_, ?_⟩
        · intro a ha i hid
          rcases List.mem_append.1 ha with h | h
          · exact hWF a h i hid
          · rw [List.mem_singleton] at h
            subst h
            cases hid
            exact hidmem
        · intro nm dp
          unfold existing_alert_count
          rw [List.countP_append, List.countP_singleton]
          by_cases hb : activeInGroup db.items nm dp
              (lowStockAlert r (total_quantity db.items r.name r.department)) = true
          · have hg : inGroup db.items
                (lowStockAlert r (total_quantity db.items r.name r.department)) nm dp = true := by
              have := hb
              unfold activeInGroup at this
              simp only [Bool.and_eq_true] at this
              exact this.1.1
            obtain ⟨hnm, hdp⟩ := group_eq_of_inGroup_self hnd hr rfl hg
            subst hnm; subst hdp
            have h0 : existing_alert_count db r.name r.department = 0 := hc.2.2
            unfold existing_alert_count at h0
            rw [h0, hb, if_pos rfl]
          · rw [if_neg (by simpa using hb)]
            have h1 := hAMO nm dp
            unfold existing_alert_count at h1
            simpa using h1
      · exact ⟨hnd, hWF, hAMO⟩

theorem applyOp_inv {db : DB} {op : Op} {now : Nat} (hInv : Inv db) (hok : okOp db op) :
    Inv (applyOp db op now) := by
  obtain ⟨hnd, hWF, hAMO⟩ := hInv
  cases op with
  | insert r =>
    have hfresh : r.id ∉ itemIds db.items := hok
    rw [applyOp, if_pos (show Op.fires db (Op.insert r) from trivial)]
    have hInv2 : Inv (postWrite db (Op.insert r)) := by
      refine ⟨?_, ?_, ?_⟩
      · show (itemIds (db.items ++ [r])).Nodup
        rw [itemIds, List.map_append]
        simp only [List.nodup_append, List.map_cons, List.map_nil]
        refine ⟨hnd, List.nodup_singleton _, ?_⟩
        intro x hx hx1
        rw [List.mem_singleton] at hx1
        subst hx1
        exact hfresh hx
      · intro a ha i hid
        show i ∈ itemIds (db.items ++ [r])
        rw [itemIds, List.map_append]
        exact List.mem_append_left _ (hWF a ha i hid)
      · intro nm dp
        unfold existing_alert_count
        have hcongr : List.countP (activeInGroup (db.items ++ [r]) nm dp) db.alerts =
            List.countP (activeInGroup db.items nm dp) db.alerts := by
          refine List.countP_congr fun a ha => ?_
          unfold activeInGroup
          rw [inGroup_append_fresh (hWF a ha) hfresh]
        calc List.countP (activeInGroup (postWrite db (Op.insert r)).items nm dp)
                (postWrite db (Op.insert r)).alerts
            = List.countP (activeInGroup (db.items ++ [r]) nm dp) db.alerts := rfl
          _ = List.countP (activeInGroup db.items nm dp) db.alerts := hcongr
          _ ≤ 1 := hAMO nm dp
    exact trigger_inv hInv2 (List.mem_append_right _ (List.mem_singleton.2 rfl)) now
  | update r =>
    by_cases hf : Op.fires db (Op.update r)
    · rw [applyOp, if_pos hf]
      have hkey : List.Forall₂ sameKey db.items
          (db.items.map fun it => if it.id == r.id then r else it) := by
        rw [List.forall₂_map_right_iff]
        refine List.forall₂_same.2 fun it hit => ?_
        by_cases hid : (it.id == r.id) = true
        · rw [if_pos hid]
          have hide : it.id = r.id := by simpa using hid
          obtain ⟨hn, hd⟩ := hok it hit hide
          exact ⟨hide, hn, hd⟩
        · rw [if_neg hid]
          exact ⟨rfl, rfl, rfl⟩
      have hids : itemIds (db.items.map fun it => if it.id == r.id then r else it) =
          itemIds db.items := by
        rw [itemIds, List.map_map, itemIds]
        refine List.map_congr_left fun it hit => ?_
        by_cases hid : (it.id == r.id) = true
        · simp only [Function.comp_apply, if_pos hid]
          exact (by simpa using hid : it.id = r.id).symm
        · simp only [Function.comp_apply, if_neg hid]
      have hrmem : r ∈ db.items.map fun it => if it.id == r.id then r else it := by
        have hf2 : ∃ it ∈ db.items, (it.id == r.id) = true := by
          simpa [Op.fires, List.any_eq_true] using hf
        obtain ⟨it, hit, hid⟩ := hf2
        exact List.mem_map.2 ⟨it, hit, if_pos hid⟩
      have hInv2 : Inv (postWrite db (Op.update r)) := by
        refine ⟨?_, ?_, ?_⟩
        · show (itemIds (db.items.map fun it => if it.id == r.id then r else it)).Nodup
          rw [hids]; exact hnd
        · intro a ha i hid
          show i ∈ itemIds (db.items.map fun it => if it.id == r.id then r else it)
          rw [hids]; exact hWF a ha i hid
        · intro nm dp
          unfold existing_alert_count
          have hcongr : List.countP
              (activeInGroup (db.items.map fun it => if it.id == r.id then r else it) nm dp)
              db.alerts = List.countP (activeInGroup db.items nm dp) db.alerts := by
            refine List.countP_congr fun a ha => ?_
            unfold activeInGroup
            rw [inGroup_congr hkey]
          calc List.countP (activeInGroup (postWrite db (Op.update r)).items nm dp)
                  (postWrite db (Op.update r)).alerts
              = List.countP
                  (activeInGroup (db.items.map fun it => if it.id == r.id then r else it) nm dp)
                  db.alerts := rfl
            _ = List.countP (activeInGroup db.items nm dp) db.alerts := hcongr
            _ ≤ 1 := hAMO nm dp
      exact trigger_inv hInv2 hrmem now
    · rw [applyOp, if_neg hf]
      exact ⟨hnd, hWF, hAMO⟩

theorem safeReach_inv {db : DB} (h : SafeReach db) : Inv db := by
  induction h with
  | empty =>
    refine ⟨List.nodup_nil, ?_, ?_⟩
    · intro a ha
      cases ha
    · intro nm dp
      simp [existing_alert_count]
  | step op now _ hok ih => exact applyOp_inv ih hok


/-- C1 (amended): for every database state reachable by inserts with
fresh primary keys and updates that do not change the written row's name
or department, and for every (item name, department, alert type) triple,
at most one unresolved alert of the Alert table matches that triple. -/
theorem at_most_one_unresolved_alert {db : DB} (h : SafeReach db)
    (nm dp : String) (ty : AlertType) :
    unresolvedTypedCount db nm dp ty ≤ 1 := by
  have hAMO := (safeReach_inv h).2.2 nm dp
  unfold existing_alert_count at hAMO
  unfold unresolvedTypedCount
  calc List.countP
        (fun a => inGroup db.items a nm dp && a.alert_type == ty && !a.is_resolved) db.alerts
      ≤ List.countP (activeInGroup db.items nm dp) db.alerts := by
        refine List.countP_mono_left fun a _ hp => ?_
        simp only [Bool.and_eq_true] at hp
        obtain ⟨⟨h1, _⟩, h3⟩ := hp
        have hst : isStockType a = true := by
          unfold isStockType
          cases a.alert_type <;> rfl
        unfold activeInGroup
        rw [h1, hst, h3]
        rfl
    _ ≤ 1 := hAMO

theorem at_most_one_unresolved_alert_witness :
    unresolvedTypedCount (applyOp ⟨[], []⟩ (Op.insert ⟨1, "X", "D", 3, 5⟩) 1) "X" "D"
      AlertType.lowStock ≤ 1 :=
  at_most_one_unresolved_alert
    (SafeReach.step (Op.insert ⟨1, "X", "D", 3, 5⟩) 1 SafeReach.empty
      (by simp [okOp, itemIds])) "X" "D"
    AlertType.lowStock

/-- C1, counterexample: a state reachable by four inserts/updates (one of
which renames an item) carries TWO unresolved low_stock alerts for the
single triple (name "X", department "D", low_stock), so the at-most-one
claim fails for unrestricted update sequences. -/
theorem duplicate_unresolved_alerts_after_rename :
    Reach renameCounterexampleDB ∧
    unresolvedTypedCount renameCounterexampleDB "X" "D" AlertType.lowStock = 2 := by
  constructor
  · exact Reach.step _ _ (Reach.step _ _ (Reach.step _ _ (Reach.step _ _ Reach.empty)))
  · decide

/-- C2: if, after an insert or update, the aggregate total for the written
row's (name, department) lies in 0 < total ≤ 10 (boundary 10 included) and
no unresolved low_stock/out_of_stock alert exists for that group, the
trigger appends exactly one new alert: type low_stock, severity medium,
message embedding the item name, the department, and the total. -/
theorem low_band_write_creates_low_stock_alert (db : DB) (op : Op) (now : Nat)
    (hf : op.fires db)
    (hpos : 0 < total_quantity (postWrite db op).items op.row.name op.row.department)
    (hle : total_quantity (postWrite db op).items op.row.name op.row.department ≤ 10)
    (hcnt : existing_alert_count (postWrite db op) op.row.name op.row.department = 0) :
    applyOp db op now =
      { postWrite db op with
        alerts := (postWrite db op).alerts ++
          [lowStockAlert op.row
            (total_quantity (postWrite db op).items op.row.name op.row.department)] } := by
  unfold applyOp
  rw [if_pos hf]
  unfold check_low_stock_by_name
  rw [if_neg (by omega), if_neg (by omega), if_pos ⟨hle, hpos, hcnt⟩]

theorem low_band_write_creates_low_stock_alert_witness :
    applyOp ⟨[], []⟩ (Op.insert ⟨1, "X", "D", 3, 5⟩) 1 =
      { items := [⟨1, "X", "D", 3, 5⟩],
        alerts := [⟨some 1, AlertType.lowStock,
          "Item \x22X\x22 in D is running low (Total: 3)", "medium", false, none⟩] } := by
  have h := low_band_write_creates_low_stock_alert ⟨[], []⟩
    (Op.insert ⟨1, "X", "D", 3, 5⟩) 1 trivial (by decide) (by decide) (by decide)
  exact h.trans (by decide)

/-- C3: if, after an insert or update, the aggregate total for the written
row's (name, department) is strictly greater than 10, the trigger marks
every unresolved low_stock/out_of_stock alert of that group resolved,
stamping resolved_at with the current time, and appends no new alert. -/
theorem replenished_write_resolves_alerts (db : DB) (op : Op) (now : Nat)
    (hf : op.fires db)
    (hgt : total_quantity (postWrite db op).items op.row.name op.row.department > 10) :
    applyOp db op now =
      { postWrite db op with
        alerts := (postWrite db op).alerts.map
          (resolveIfActive (postWrite db op).items op.row.name op.row.department now) } ∧
    (applyOp db op now).alerts.length = (postWrite db op).alerts.length ∧
    ∀ a ∈ (postWrite db op).alerts,
      activeInGroup (postWrite db op).items op.row.name op.row.department a = true →
      resolveIfActive (postWrite db op).items op.row.name op.row.department now a =
        { a with is_resolved := true, resolved_at := some now } := by
  have heq : applyOp db op now =
      { postWrite db op with
        alerts := (postWrite db op).alerts.map
          (resolveIfActive (postWrite db op).items op.row.name op.row.department now) } := by
    unfold applyOp
    rw [if_pos hf]
    unfold check_low_stock_by_name
    rw [if_pos hgt]
  refine ⟨heq, ?_, ?_⟩
  · rw [heq]
    exact List.length_map _ _
  · intro a _ ha
    unfold resolveIfActive
    rw [if_pos ha]

theorem replenished_write_resolves_alerts_witness :
    applyOp ⟨[⟨1, "X", "D", 3, 5⟩],
        [⟨some 1, AlertType.lowStock, "m", "medium", false, none⟩]⟩
      (Op.update ⟨1, "X", "D", 20, 5⟩) 9 =
      { items := [⟨1, "X", "D", 20, 5⟩],
        alerts := [⟨some 1, AlertType.lowStock, "m", "medium", true, some 9⟩] } := by
  have h := replenished_write_resolves_alerts
    ⟨[⟨1, "X", "D", 3, 5⟩], [⟨some 1, AlertType.lowStock, "m", "medium", false, none⟩]⟩
    (Op.update ⟨1, "X", "D", 20, 5⟩) 9 (by decide) (by decide)
  exact h.1.trans (by decide)

/-- C4: if an unresolved low_stock/out_of_stock alert already exists for
the written row's (name, department) and the post-write total lies in
0 ≤ total ≤ 10, the trigger takes no action: the alert table is exactly
the pre-trigger one, so repeated in-band writes add no alert rows. -/
theorem in_band_write_with_alert_is_noop (db : DB) (op : Op) (now : Nat)
    (hf : op.fires db)
    (hcnt : 0 < existing_alert_count (postWrite db op) op.row.name op.row.department)
    (h0 : 0 ≤ total_quantity (postWrite db op).items op.row.name op.row.department)
    (hle : total_quantity (postWrite db op).items op.row.name op.row.department ≤ 10) :
    applyOp db op now = postWrite db op := by
  unfold applyOp
  rw [if_pos hf]
  unfold check_low_stock_by_name
  rw [if_neg (by omega), if_neg (by omega), if_neg (by omega)]

theorem in_band_write_with_alert_is_noop_witness :
    applyOp ⟨[⟨1, "X", "D", 3, 5⟩],
        [⟨some 1, AlertType.lowStock, "m", "medium", false, none⟩]⟩
      (Op.update ⟨1, "X", "D", 4, 5⟩) 9 =
      ⟨[⟨1, "X", "D", 4, 5⟩],
        [⟨some 1, AlertType.lowStock, "m", "medium", false, none⟩]⟩ := by
  have h := in_band_write_with_alert_is_noop
    ⟨[⟨1, "X", "D", 3, 5⟩], [⟨some 1, AlertType.lowStock, "m", "medium", false, none⟩]⟩
    (Op.update ⟨1, "X", "D", 4, 5⟩) 9 (by decide) (by decide) (by decide) (by decide)
  exact h.trans (by decide)

theorem sameKey_of_eqExceptThreshold {a b : Item} (h : eqExceptThreshold a b) :
    sameKey a b :=
  ⟨h.1, h.2.1, h.2.2.1⟩

theorem total_quantity_congr {l₁ l₂ : List Item}
    (h : List.Forall₂ eqExceptThreshold l₁ l₂) (nm dp : String) :
    total_quantity l₁ nm dp = total_quantity l₂ nm dp := by
  induction h with
  | nil => rfl
  | @cons x y l₁ l₂ hxy _ ih =>
    obtain ⟨_, hn, hd, hq⟩ := hxy
    simp only [total_quantity, List.filter_cons] at ih ⊢
    rw [show sameNameDept nm dp x = sameNameDept nm dp y by
      unfold sameNameDept; rw [hn, hd]]
    by_cases hc : sameNameDept nm dp y = true
    · rw [if_pos hc, if_pos hc]
      simp only [List.map_cons, List.sum_cons]
      rw [hq, ih]
    · rw [if_neg hc, if_neg hc]
      exact ih

theorem existing_count_congr {l₁ l₂ : List Item}
    (h : List.Forall₂ eqExceptThreshold l₁ l₂) (alerts : List Alert) (nm dp : String) :
    alerts.countP (activeInGroup l₁ nm dp) = alerts.countP (activeInGroup l₂ nm dp) := by
  refine List.countP_congr fun a _ => ?_
  unfold activeInGroup
  rw [inGroup_congr (h.imp fun a b => sameKey_of_eqExceptThreshold)]

theorem check_items_eq (db : DB) (r : Item) (now : Nat) :
    (check_low_stock_by_name db r now).items = db.items := by
  simp only [check_low_stock_by_name]
  split
  · rfl
  · split
    · rfl
    · split
      · rfl
      · rfl

theorem any_id_congr {l₁ l₂ : List Item}
    (h : List.Forall₂ eqExceptThreshold l₁ l₂) {i j : Nat} (hij : i = j) :
    (l₁.any fun it => it.id == i) = (l₂.any fun it => it.id == j) := by
  subst hij
  induction h with
  | nil => rfl
  | @cons x y l₁ l₂ hxy _ ih =>
    simp only [List.any_cons, hxy.1, ih]

theorem replace_forall₂ {l₁ l₂ : List Item}
    (h : List.Forall₂ eqExceptThreshold l₁ l₂) {r₁ r₂ : Item}
    (hr : eqExceptThreshold r₁ r₂) :
    List.Forall₂ eqExceptThreshold
      (l₁.map fun it => if it.id == r₁.id then r₁ else it)
      (l₂.map fun it => if it.id == r₂.id then r₂ else it) := by
  induction h with
  | nil => exact .nil
  | @cons x y l₁ l₂ hxy _ ih =>
    simp only [List.map_cons]
    refine .cons ?_ ih
    by_cases hc : (x.id == r₁.id) = true
    · have hc2 : (y.id == r₂.id) = true := by
        rw [← hxy.1, ← hr.1]; exact hc
      rw [if_pos hc, if_pos hc2]
      exact hr
    · have hc2 : ¬(y.id == r₂.id) = true := by
        rw [← hxy.1, ← hr.1]; exact hc
      rw [if_neg hc, if_neg hc2]
      exact hxy

theorem check_alerts_congr {items₁ items₂ : List Item} {alerts : List Alert}
    {r₁ r₂ : Item} (now : Nat)
    (hitems : List.Forall₂ eqExceptThreshold items₁ items₂)
    (hr : eqExceptThreshold r₁ r₂) :
    (check_low_stock_by_name ⟨items₁, alerts⟩ r₁ now).alerts =
      (check_low_stock_by_name ⟨items₂, alerts⟩ r₂ now).alerts := by
  obtain ⟨hid, hnm, hdp, _⟩ := hr
  have htot : total_quantity items₁ r₁.name r₁.department =
      total_quantity items₂ r₂.name r₂.department := by
    rw [hnm, hdp]
    exact total_quantity_congr hitems _ _
  have hcnt : existing_alert_count ⟨items₁, alerts⟩ r₁.name r₁.department =
      existing_alert_count ⟨items₂, alerts⟩ r₂.name r₂.department := by
    unfold existing_alert_count
    rw [hnm, hdp]
    exact existing_count_congr hitems _ _ _
  have hresolve : ∀ a : Alert,
      resolveIfActive items₁ r₁.name r₁.department now a =
      resolveIfActive items₂ r₂.name r₂.department now a := by
    intro a
    unfold resolveIfActive activeInGroup
    rw [inGroup_congr (hitems.imp fun a b => sameKey_of_eqExceptThreshold), hnm, hdp]
  have hout : outOfStockAlert r₁ = outOfStockAlert r₂ := by
    unfold outOfStockAlert
    rw [hid, hnm, hdp]
  have hlow : ∀ t : Int, lowStockAlert r₁ t = lowStockAlert r₂ t := by
    intro t
    unfold lowStockAlert
    rw [hid, hnm, hdp]
  simp only [check_low_stock_by_name]
  rw [htot, hcnt]
  by_cases h1 : total_quantity items₂ r₂.name r₂.department > 10
  · rw [if_pos h1, if_pos h1]
    exact List.map_congr_left fun a _ => hresolve a
  · rw [if_neg h1, if_neg h1]
    by_cases h2 : total_quantity items₂ r₂.name r₂.department = 0 ∧
        existing_alert_count ⟨items₂, alerts⟩ r₂.name r₂.department = 0
    · rw [if_pos h2, if_pos h2]
      show alerts ++ [outOfStockAlert r₁] = alerts ++ [outOfStockAlert r₂]
      rw [hout]
    · rw [if_neg h2, if_neg h2]
      by_cases h3 : total_quantity items₂ r₂.name r₂.department ≤ 10 ∧
          total_quantity items₂ r₂.name r₂.department > 0 ∧
          existing_alert_count ⟨items₂, alerts⟩ r₂.name r₂.department = 0
      · rw [if_pos h3, if_pos h3]
        show alerts ++ [lowStockAlert r₁ _] = alerts ++ [lowStockAlert r₂ _]
        rw [hlow]
      · rw [if_neg h3, if_neg h3]

/-- C5: the reconciliation trigger never consults `low_stock_threshold`:
on two database states whose inventory rows differ only in their
threshold column (alerts equal), the same write modulo threshold produces
equal alert tables and inventory rows again differing only in threshold. -/
theorem trigger_ignores_per_item_threshold {db₁ db₂ : DB} {op₁ op₂ : Op} (now : Nat)
    (hitems : List.Forall₂ eqExceptThreshold db₁.items db₂.items)
    (halerts : db₁.alerts = db₂.alerts)
    (hop : opEqExceptThreshold op₁ op₂) :
    (applyOp db₁ op₁ now).alerts = (applyOp db₂ op₂ now).alerts ∧
    List.Forall₂ eqExceptThreshold (applyOp db₁ op₁ now).items (applyOp db₂ op₂ now).items := by
  cases op₁ with
  | insert r₁ =>
    cases op₂ with
    | insert r₂ =>
      have hr : eqExceptThreshold r₁ r₂ := hop
      have hpost : List.Forall₂ eqExceptThreshold (db₁.items ++ [r₁]) (db₂.items ++ [r₂]) :=
        List.rel_append hitems (List.Forall₂.cons hr List.Forall₂.nil)
      rw [applyOp, applyOp, if_pos (show Op.fires db₁ (Op.insert r₁) from trivial),
        if_pos (show Op.fires db₂ (Op.insert r₂) from trivial)]
      constructor
      · show (check_low_stock_by_name ⟨db₁.items ++ [r₁], db₁.alerts⟩ r₁ now).alerts =
            (check_low_stock_by_name ⟨db₂.items ++ [r₂], db₂.alerts⟩ r₂ now).alerts
        rw [halerts]
        exact check_alerts_congr now hpost hr
      · show List.Forall₂ eqExceptThreshold
            (check_low_stock_by_name ⟨db₁.items ++ [r₁], db₁.alerts⟩ r₁ now).items
            (check_low_stock_by_name ⟨db₂.items ++ [r₂], db₂.alerts⟩ r₂ now).items
        rw [check_items_eq, check_items_eq]
        exact hpost
    | update r₂ => exact absurd hop (by simp [opEqExceptThreshold])
  | update r₁ =>
    cases op₂ with
    | insert r₂ => exact absurd hop (by simp [opEqExceptThreshold])
    | update r₂ =>
      have hr : eqExceptThreshold r₁ r₂ := hop
      obtain ⟨hid, hnm, hdp, hq⟩ := hr
      have hfires : Op.fires db₁ (Op.update r₁) ↔ Op.fires db₂ (Op.update r₂) := by
        show ((db₁.items.any fun it => it.id == r₁.id) = true) ↔
          ((db₂.items.any fun it => it.id == r₂.id) = true)
        rw [any_id_congr hitems hid]
      by_cases hf : Op.fires db₁ (Op.update r₁)
      · have hf2 : Op.fires db₂ (Op.update r₂) := hfires.1 hf
        rw [applyOp, applyOp, if_pos hf, if_pos hf2]
        have hpost := replace_forall₂ hitems (show eqExceptThreshold r₁ r₂ from ⟨hid, hnm, hdp, hq⟩)
        constructor
        · show (check_low_stock_by_name
              ⟨db₁.items.map fun it => if it.id == r₁.id then r₁ else it, db₁.alerts⟩
              r₁ now).alerts =
            (check_low_stock_by_name
              ⟨db₂.items.map fun it => if it.id == r₂.id then r₂ else it, db₂.alerts⟩
              r₂ now).alerts
          rw [halerts]
          exact check_alerts_congr now hpost ⟨hid, hnm, hdp, hq⟩
        · show List.Forall₂ eqExceptThreshold
            (check_low_stock_by_name
              ⟨db₁.items.map fun it => if it.id == r₁.id then r₁ else it, db₁.alerts⟩
              r₁ now).items
            (check_low_stock_by_name
              ⟨db₂.items.map fun it => if it.id == r₂.id then r₂ else it, db₂.alerts⟩
              r₂ now).items
          rw [check_items_eq, check_items_eq]
          exact hpost
      · have hf2 : ¬Op.fires db₂ (Op.update r₂) := fun h => hf (hfires.2 h)
        rw [applyOp, applyOp, if_neg hf, if_neg hf2]
        exact ⟨halerts, hitems⟩

theorem trigger_ignores_per_item_threshold_witness :
    (applyOp ⟨[⟨1, "X", "D", 3, 5⟩], []⟩ (Op.insert ⟨2, "X", "D", 4, 7⟩) 1).alerts =
      (applyOp ⟨[⟨1, "X", "D", 3, 99⟩], []⟩ (Op.insert ⟨2, "X", "D", 4, 0⟩) 1).alerts :=
  (@trigger_ignores_per_item_threshold ⟨[⟨1, "X", "D", 3, 5⟩], []⟩ ⟨[⟨1, "X", "D", 3, 99⟩], []⟩
    (Op.insert ⟨2, "X", "D", 4, 7⟩) (Op.insert ⟨2, "X", "D", 4, 0⟩) 1
    (List.Forall₂.cons ⟨rfl, rfl, rfl, rfl⟩ List.Forall₂.nil) rfl
    (by show eqExceptThreshold ⟨2, "X", "D", 4, 7⟩ ⟨2, "X", "D", 4, 0⟩
        exact ⟨rfl, rfl, rfl, rfl⟩)).1


/-- A row of `user_roles`: one role and one department per user. -/
theorem inventory_write_policy (roles : List UserRoleRow) (u : Nat) (row : Item) :
    (can_insert_inventory roles u row = true ↔
      has_role roles u Role.admin = true ∨
      (has_role roles u Role.hod = true ∧
        get_user_department roles u = some row.department)) ∧
    (can_update_inventory roles u row = true ↔
      has_role roles u Role.admin = true ∨
      (has_role roles u Role.hod = true ∧
        get_user_department roles u = some row.department)) ∧
    (can_delete_inventory roles u row = true ↔
      has_role roles u Role.admin = true ∨
      (has_role roles u Role.hod = true ∧
        get_user_department roles u = some row.department)) ∧
    ((∀ x ∈ roles, x.user_id = u → x.role = Role.staff) →
      can_insert_inventory roles u row = false ∧
      can_update_inventory roles u row = false ∧
      can_delete_inventory roles u row = false) := by
  have hiff : ∀ b : Bool, (adminManageInventory roles u || hodOwnDepartment roles u row.department) = true ↔
      has_role roles u Role.admin = true ∨
      (has_role roles u Role.hod = true ∧
        get_user_department roles u = some row.department) := by
    intro _
    simp [adminManageInventory, hodOwnDepartment]
  refine ⟨hiff true, hiff true, hiff true, ?_⟩
  intro hstaff
  have hnr : ∀ r0 : Role, r0 ≠ Role.staff → has_role roles u r0 = false := by
    intro r0 hr0
    simp only [has_role, List.any_eq_false, Bool.and_eq_true, beq_iff_eq, not_and]
    intro x hx hxu hxr
    exact hr0 (hxr ▸ hstaff x hx hxu)
  have ha := hnr Role.admin (by simp)
  have hh := hnr Role.hod (by simp)
  refine ⟨?_, ?_, ?_⟩ <;>
    simp [can_insert_inventory, can_update_inventory, can_delete_inventory,
      adminManageInventory, hodOwnDepartment, ha, hh]

theorem inventory_write_policy_witness :
    can_insert_inventory [⟨1, Role.hod, "Physics"⟩] 1 ⟨10, "Microscope", "Physics", 4, 5⟩ = true ∧
    can_insert_inventory [⟨1, Role.hod, "Physics"⟩] 1 ⟨10, "Microscope", "CSE", 4, 5⟩ = false ∧
    can_update_inventory [⟨2, Role.staff, "CSE"⟩] 2 ⟨10, "Microscope", "CSE", 4, 5⟩ = false := by
  refine ⟨?_, ?_, ?_⟩
  · exact (inventory_write_policy [⟨1, Role.hod, "Physics"⟩] 1
      ⟨10, "Microscope", "Physics", 4, 5⟩).1.mpr (Or.inr ⟨by decide, by decide⟩)
  · by_contra hc
    have := (inventory_write_policy [⟨1, Role.hod, "Physics"⟩] 1
      ⟨10, "Microscope", "CSE", 4, 5⟩).1.mp (by revert hc; decide)
    revert this
    decide
  · exact ((inventory_write_policy [⟨2, Role.staff, "CSE"⟩] 2
      ⟨10, "Microscope", "CSE", 4, 5⟩).2.2.2 (by decide)).2.1


/-- C7: a registration request is deletable iff the caller is an admin
and the request status is rejected; an approved or pending request is
never deletable through this policy, for any caller. -/
theorem registration_delete_policy (roles : List UserRoleRow) (u : Nat) (q : RegRequest) :
    (can_delete_registration_request roles u q = true ↔
      has_role roles u Role.admin = true ∧ q.status = ReqStatus.rejected) ∧
    (q.status = ReqStatus.approved ∨ q.status = ReqStatus.pending →
      can_delete_registration_request roles u q = false) := by
  constructor
  · simp [can_delete_registration_request]
  · rintro (hs | hs) <;>
      simp [can_delete_registration_request, hs]

theorem registration_delete_policy_witness :
    can_delete_registration_request [⟨1, Role.admin, "IT"⟩] 1
      ⟨3, "e", "n", "IT", Role.staff, ReqStatus.rejected, none, none⟩ = true ∧
    can_delete_registration_request [⟨1, Role.admin, "IT"⟩] 1
      ⟨3, "e", "n", "IT", Role.staff, ReqStatus.approved, none, none⟩ = false ∧
    can_delete_registration_request [⟨2, Role.staff, "IT"⟩] 2
      ⟨3, "e", "n", "IT", Role.staff, ReqStatus.rejected, none, none⟩ = false := by
  refine ⟨?_, ?_, ?_⟩
  · exact (registration_delete_policy [⟨1, Role.admin, "IT"⟩] 1
      ⟨3, "e", "n", "IT", Role.staff, ReqStatus.rejected, none, none⟩).1.mpr
      ⟨by decide, rfl⟩
  · exact (registration_delete_policy [⟨1, Role.admin, "IT"⟩] 1
      ⟨3, "e", "n", "IT", Role.staff, ReqStatus.approved, none, none⟩).2 (Or.inl rfl)
  · by_contra hc
    have := ((registration_delete_policy [⟨2, Role.staff, "IT"⟩] 2
      ⟨3, "e", "n", "IT", Role.staff, ReqStatus.rejected, none, none⟩).1.mp
      (by revert hc; decide)).1
    revert this
    decide

/-- C8, counterexample: a caller with no user_roles row (every role
lookup fails and the department lookup is NULL) can nevertheless read a
grievance row they created, through the ownership-based SELECT policy
`auth.uid() = created_by`; so "the missing-role caller can read no
protected row" fails. -/
theorem missing_role_caller_reads_own_grievance :
    can_read_grievance [] 7 ⟨1, 7⟩ = true ∧
    get_user_department [] 7 = none ∧
    has_role [] 7 Role.admin = false ∧
    has_role [] 7 Role.hod = false ∧
    has_role [] 7 Role.staff = false := by
  decide

/-- C8 (amended): every role-consulting authorization predicate fails
closed when the caller has no user_roles row: inventory insert, update
and delete, scrap insert and view, grievance create and update, and
registration-request delete all deny, and the department lookup returns
NULL.  Only the ownership-based grievance read rule, which never consults
roles, can still allow such a caller. -/
theorem role_predicates_fail_closed (roles : List UserRoleRow) (u : Nat)
    (h : noRole roles u) :
    (∀ row : Item, can_insert_inventory roles u row = false ∧
      can_update_inventory roles u row = false ∧
      can_delete_inventory roles u row = false) ∧
    (∀ dp : String, can_insert_scrap roles u dp = false ∧
      can_view_scrap roles u dp = false) ∧
    (∀ g : Grievance, can_create_grievance roles u g = false) ∧
    can_update_grievance roles u = false ∧
    (∀ q : RegRequest, can_delete_registration_request roles u q = false) ∧
    get_user_department roles u = none := by
  have hr : ∀ r0 : Role, has_role roles u r0 = false := by
    intro r0
    simp only [has_role, List.any_eq_false, Bool.and_eq_true, beq_iff_eq, not_and]
    intro x hx hxu
    exact absurd hxu (h x hx)
  have hd : get_user_department roles u = none := by
    unfold get_user_department
    rw [List.find?_eq_none.2]
    · rfl
    · intro x hx
      simp only [beq_iff_eq]
      exact h x hx
  refine ⟨?_, ?_, ?_, ?_, ?_, hd⟩
  · intro row
    refine ⟨?_, ?_, ?_⟩ <;>
      simp [can_insert_inventory, can_update_inventory, can_delete_inventory,
        adminManageInventory, hodOwnDepartment, hr]
  · intro dp
    constructor <;> simp [can_insert_scrap, can_view_scrap, hodOwnDepartment, hr]
  · intro g
    simp [can_create_grievance, hr]
  · simp [can_update_grievance, hr]
  · intro q
    simp [can_delete_registration_request, hr]

theorem role_predicates_fail_closed_witness :
    can_insert_inventory [⟨1, Role.admin, "IT"⟩] 7 ⟨10, "M", "IT", 4, 5⟩ = false ∧
    can_update_grievance [⟨1, Role.admin, "IT"⟩] 7 = false := by
  have h := role_predicates_fail_closed [⟨1, Role.admin, "IT"⟩] 7
    (by intro x hx; simp only [List.mem_singleton] at hx; subst hx; decide)
  exact ⟨(h.1 ⟨10, "M", "IT", 4, 5⟩).1, h.2.2.2.1⟩


/-- The `registration_requests` update issued by `handleApprove` in the
Users page: rows with the given id get status approved, reviewed_at set
to the current time, and reviewed_by set to the signed-in admin when the
auth lookup yields one (a JSON `undefined` value drops the key, leaving
the column untouched). -/
theorem create_admin_approves_without_reviewer :
    createAdminRequestUpdate
      [⟨1, "admin@stocknexus.com", "A", "IT", Role.staff, ReqStatus.pending, none, none⟩]
      "admin@stocknexus.com" 5 =
      [⟨1, "admin@stocknexus.com", "A", "IT", Role.staff, ReqStatus.approved, none, some 5⟩] := by
  decide

/-- C9 (amended): the admin review paths — the Users page approve and
reject handlers and the approve-user edge function, given a resolved
reviewing admin — stamp both reviewed_by and reviewed_at on the reviewed
row; the create-admin bootstrap path stamps only reviewed_at and leaves
reviewed_by unchanged. -/
theorem review_paths_stamp_reviewer (reqs : List RegRequest) (reqId : Nat)
    (a now : Nat) :
    (∀ q ∈ reqs, q.id = reqId →
      ({ q with
          status := ReqStatus.approved
          reviewed_at := some now
          reviewed_by := some a } ∈ handleApproveUpdate reqs reqId (some a) now) ∧
      ({ q with
          status := ReqStatus.rejected
          reviewed_at := some now
          reviewed_by := some a } ∈ handleRejectUpdate reqs reqId (some a) now) ∧
      ({ q with
          status := ReqStatus.approved
          reviewed_by := some a
          reviewed_at := some now } ∈ approveUserRequestUpdate reqs reqId (some a) now)) ∧
    (∀ email : String, ∀ q ∈ reqs, q.email = email →
      { q with status := ReqStatus.approved, reviewed_at := some now } ∈
        createAdminRequestUpdate reqs email now) := by
  constructor
  · intro q hq hid
    refine ⟨?_, ?_, ?_⟩
    · exact List.mem_map.2 ⟨q, hq, by rw [if_pos (beq_iff_eq.2 hid)]⟩
    · exact List.mem_map.2 ⟨q, hq, by rw [if_pos (beq_iff_eq.2 hid)]⟩
    · exact List.mem_map.2 ⟨q, hq, by rw [if_pos (beq_iff_eq.2 hid)]⟩
  · intro email q hq hem
    exact List.mem_map.2 ⟨q, hq, by rw [if_pos (beq_iff_eq.2 hem)]⟩

theorem review_paths_stamp_reviewer_witness :
    (⟨1, "e", "n", "IT", Role.staff, ReqStatus.approved, some 9, some 5⟩ : RegRequest) ∈
      handleApproveUpdate
        [⟨1, "e", "n", "IT", Role.staff, ReqStatus.pending, none, none⟩] 1 (some 9) 5 :=
  ((review_paths_stamp_reviewer
      [⟨1, "e", "n", "IT", Role.staff, ReqStatus.pending, none, none⟩] 1 9 5).1
    ⟨1, "e", "n", "IT", Role.staff, ReqStatus.pending, none, none⟩
    (List.mem_singleton.2 rfl) rfl).1

/-- A row of `profiles`, restricted to the columns the flows write. -/
theorem admin_email_bypasses_approval (st : SystemState)
    (email fullName department : String) (role : Role) (newUserId reqId now : Nat) :
    (toLowerCase email = "admin@stocknexus.com" →
      (handleRegistrationRequest st email fullName department role newUserId reqId now) =
        createAdmin st email fullName (if department == "" then "IT" else department)
          newUserId now ∧
      (handleRegistrationRequest st email fullName department role newUserId reqId now).authUsers =
        st.authUsers ++ [(newUserId, email)] ∧
      (handleRegistrationRequest st email fullName department role newUserId reqId now).user_roles =
        st.user_roles ++ [⟨newUserId, Role.admin,
          if department == "" then "IT" else department⟩] ∧
      (handleRegistrationRequest st email fullName department role newUserId reqId now).requests.length =
        st.requests.length ∧
      (∀ q ∈ st.requests, q.email = email →
        { q with status := ReqStatus.approved, reviewed_at := some now } ∈
          (handleRegistrationRequest st email fullName department role newUserId reqId now).requests)) ∧
    (toLowerCase email ≠ "admin@stocknexus.com" →
      (handleRegistrationRequest st email fullName department role newUserId reqId now) =
        { st with requests := st.requests ++
            [⟨reqId, email, fullName, department, role, ReqStatus.pending, none, none⟩] }) := by
  constructor
  · intro h
    have hb : (toLowerCase email == "admin@stocknexus.com") = true := beq_iff_eq.2 h
    have heq : handleRegistrationRequest st email fullName department role newUserId reqId now =
        createAdmin st email fullName (if department == "" then "IT" else department)
          newUserId now := by
      unfold handleRegistrationRequest
      rw [if_pos hb]
    refine ⟨heq, by rw [heq]; rfl, by rw [heq]; rfl, ?_, ?_⟩
    · rw [heq]
      show (createAdminRequestUpdate st.requests email now).length = st.requests.length
      exact List.length_map _ _
    · intro q hq hem
      rw [heq]
      show _ ∈ createAdminRequestUpdate st.requests email now
      exact List.mem_map.2 ⟨q, hq, by rw [if_pos (beq_iff_eq.2 hem)]⟩
  · intro h
    unfold handleRegistrationRequest
    rw [if_neg (by simpa using h)]

theorem admin_email_bypasses_approval_witness :
    handleRegistrationRequest ⟨[], [], [], []⟩ "Admin@StockNexus.com" "Root" "" Role.staff 1 0 5 =
      ⟨[(1, "Admin@StockNexus.com")],
        [⟨1, "Admin@StockNexus.com", "Root", "IT"⟩],
        [⟨1, Role.admin, "IT"⟩], []⟩ ∧
    handleRegistrationRequest ⟨[], [], [], []⟩ "user@uni.edu" "U" "CSE" Role.hod 2 3 6 =
      ⟨[], [], [], [⟨3, "user@uni.edu", "U", "CSE", Role.hod, ReqStatus.pending, none, none⟩]⟩ := by
  constructor
  · have h := (admin_email_bypasses_approval ⟨[], [], [], []⟩
      "Admin@StockNexus.com" "Root" "" Role.staff 1 0 5).1 (by decide)
    exact h.1.trans (by decide)
  · have h := (admin_email_bypasses_approval ⟨[], [], [], []⟩
      "user@uni.edu" "U" "CSE" Role.hod 2 3 6).2 (by decide)
    exact h.trans (by decide)

end StockNexus
